/-
  Verification of the mflag configuration-binding engine
  (lwmacct/250300-go-mod-mflag: pkg/mflag/function.go, pkg/mflag/mflag.go).

  The Go source is shallowly embedded:
  * Go strings are Lean `String`s; the engine only ever sees ASCII
    identifiers/tags, so `unicode.IsUpper`/`ToLower`/`strings.ToUpper` are
    modelled on the ASCII range and byte indexing coincides with rune
    indexing.
  * Machine integers are `Int`/`Nat` with the strconv bit-width range checks
    made explicit; `bitSize 0` (Go `int`/`uint`) is modelled as 64 bit.
  * Floating-point text is evaluated exactly as a rational (IEEE rounding is
    not modelled; no claim depends on parsed float values).
  * Fallible Go code returns `Except String`; a reflect panic aborts the
    whole bind, modelled as the `Except.error` of `bindFields`.
  * The cobra/pflag parameter-set is an external collaborator of this
    repository; it is modelled from the spec's parameter-set contract (§6),
    each such definition is marked `Modelled from the spec:`.
-/
import Mathlib

/-! ### ASCII character model (unicode.IsUpper / IsLower / ToLower on the
identifiers the engine sees) -/

/-- unicode.IsUpper restricted to ASCII. -/
def goIsUpper (c : Char) : Bool := 65 ≤ c.toNat && c.toNat ≤ 90

/-- unicode.IsLower restricted to ASCII. -/
def goIsLower (c : Char) : Bool := 97 ≤ c.toNat && c.toNat ≤ 122

/-- ASCII decimal digit test. -/
def goIsDigit (c : Char) : Bool := 48 ≤ c.toNat && c.toNat ≤ 57

/-- unicode.ToLower restricted to ASCII. -/
def goToLower (c : Char) : Char :=
  if goIsUpper c then Char.ofNat (c.toNat + 32) else c

/-- strings.ToUpper on one ASCII character. -/
def goToUpperChar (c : Char) : Char :=
  if goIsLower c then Char.ofNat (c.toNat - 32) else c

/-- strings.ToUpper (ASCII). -/
def goToUpper (s : String) : String := String.mk (s.data.map goToUpperChar)

/-- strings.ReplaceAll(s, "-", "_"): the pattern is a single character, so it
is a character map. -/
def replaceDashUnderscore (s : String) : String :=
  String.mk (s.data.map fun c => if c = '-' then '_' else c)

/-- The ASCII part of unicode.IsSpace, as used by strings.TrimSpace. -/
def isSpaceChar : Char → Bool
  | ' ' | '\t' | '\n' | '\x0b' | '\x0c' | '\r' => true
  | _ => false

/-- strings.TrimSpace (ASCII whitespace). -/
def trimSpaceStr (s : String) : String :=
  String.mk (((s.data.dropWhile isSpaceChar).reverse.dropWhile isSpaceChar).reverse)

/-- strings.Split on a single-character separator, over the character list.
`strings.Split("", sep) = [""]` and empty fields are kept, as in Go. -/
def splitOnChar (sep : Char) : List Char → List (List Char)
  | [] => [[]]
  | c :: rest =>
    match splitOnChar sep rest with
    | h :: t => if c = sep then [] :: h :: t else (c :: h) :: t
    | [] => [[c]]

/-- strings.Split(s, ","). -/
def splitComma (s : String) : List String := (splitOnChar ',' s.data).map String.mk

/-! ### strconv models -/

/-- Decimal digit accumulator for strconv. -/
def digitsToNat : List Char → Nat → Nat
  | [], acc => acc
  | c :: r, acc => digitsToNat r (acc * 10 + (c.toNat - 48))

/-- A non-empty all-decimal-digit run. -/
def allDigits (l : List Char) : Bool := !l.isEmpty && l.all goIsDigit

/-- strconv.ParseInt(s, 10, bitSize).  bitSize 0 (Go `int`) is passed as 64. -/
def goParseInt (s : String) (bits : Nat) : Except String Int :=
  let body := fun (neg : Bool) (ds : List Char) =>
    if allDigits ds then
      let n : Int := (digitsToNat ds 0 : Nat)
      let v := if neg then -n else n
      if v < -(2 ^ (bits - 1) : Int) ∨ (2 ^ (bits - 1) : Int) - 1 < v then
        Except.error ("strconv.ParseInt: parsing \"" ++ s ++ "\": value out of range")
      else Except.ok v
    else Except.error ("strconv.ParseInt: parsing \"" ++ s ++ "\": invalid syntax")
  match s.data with
  | '-' :: rest => body true rest
  | '+' :: rest => body false rest
  | l => body false l

/-- strconv.ParseUint(s, 10, bitSize); sign characters are a syntax error. -/
def goParseUint (s : String) (bits : Nat) : Except String Nat :=
  if allDigits s.data then
    let n := digitsToNat s.data 0
    if (2 ^ bits : Nat) - 1 < n then
      Except.error ("strconv.ParseUint: parsing \"" ++ s ++ "\": value out of range")
    else Except.ok n
  else Except.error ("strconv.ParseUint: parsing \"" ++ s ++ "\": invalid syntax")

/-- strconv.ParseBool: exactly the documented accepted strings. -/
def goParseBool (s : String) : Except String Bool :=
  match s with
  | "1" | "t" | "T" | "true" | "TRUE" | "True" => Except.ok true
  | "0" | "f" | "F" | "false" | "FALSE" | "False" => Except.ok false
  | _ => Except.error ("strconv.ParseBool: parsing \"" ++ s ++ "\": invalid syntax")

/-- strconv.ParseFloat, modelled: an optional sign and a decimal mantissa with
optional fraction, evaluated exactly as a rational.  Exponents, hex floats and
IEEE rounding are not modelled; no claim depends on parsed float values. -/
def goParseFloat (s : String) (_bits : Nat) : Except String Rat :=
  let err : Except String Rat :=
    Except.error ("strconv.ParseFloat: parsing \"" ++ s ++ "\": invalid syntax")
  let core := fun (neg : Bool) (l : List Char) =>
    match splitOnChar '.' l with
    | [ip] =>
      if allDigits ip then
        Except.ok (if neg then -((digitsToNat ip 0 : Nat) : Rat) else ((digitsToNat ip 0 : Nat) : Rat))
      else err
    | [ip, fp] =>
      if allDigits ip && allDigits fp then
        let q : Rat := ((digitsToNat ip 0 : Nat) : Rat) +
          ((digitsToNat fp 0 : Nat) : Rat) / ((10 : Rat) ^ fp.length)
        Except.ok (if neg then -q else q)
      else err
    | _ => err
  match s.data with
  | '-' :: rest => core true rest
  | '+' :: rest => core false rest
  | l => core false l

/-! ### time.ParseDuration model -/

/-- The nanosecond multiplier of a duration unit suffix (ASCII subset). -/
def durUnitNanos : List Char → Option Int
  | ['n', 's'] => some 1
  | ['u', 's'] => some 1000
  | ['m', 's'] => some 1000000
  | ['s'] => some 1000000000
  | ['m'] => some 60000000000
  | ['h'] => some 3600000000000
  | _ => none

/-- Split a leading digit run from a character list. -/
def spanDigits : List Char → List Char × List Char
  | [] => ([], [])
  | c :: r =>
    if goIsDigit c then
      let p := spanDigits r
      (c :: p.1, p.2)
    else ([], c :: r)

/-- Modelled from the spec: time.ParseDuration, the "standard human-readable
duration grammar" (§4.2).  The model accepts an optional sign and a single
integer quantity with unit ns/us/ms/s/m/h, plus the literal "0"; fractional
and multi-group forms are not modelled — no claim exercises duration text,
only that some strings parse and others (such as bare "10") do not. -/
def parseGoDuration (s : String) : Except String Int :=
  let err : Except String Int := Except.error ("time: invalid duration \"" ++ s ++ "\"")
  let core := fun (neg : Bool) (l : List Char) =>
    if l = ['0'] then Except.ok 0
    else
      let p := spanDigits l
      if p.1 = [] then err
      else
        match durUnitNanos p.2 with
        | none => err
        | some mult =>
          let v : Int := (digitsToNat p.1 0 : Nat) * mult
          Except.ok (if neg then -v else v)
  match s.data with
  | '-' :: rest => core true rest
  | '+' :: rest => core false rest
  | l => core false l

/-! ### The data model: field tags, Go types, Go values -/

/-- The per-field tag record (function.go lines 19-26), with the tag keys
bind/default/group/required/note/flag already extracted. -/
structure tsFieldTag where
  Bind : String
  Default : String
  Group : String
  Required : String
  Note : String
  Flag : String
deriving Repr, DecidableEq

mutual
/-- The Go types a configuration field can have.  `duration` is
time.Duration (a defined type whose reflect kind is Int64); `mapType e` is
map[string]e; `other kindStr` stands for a field type of an unsupported
reflect kind, carrying `Kind().String()`. -/
inductive GoType where
  | duration
  | bool
  | int
  | int8
  | int16
  | int32
  | int64
  | uint
  | uint8
  | uint16
  | uint32
  | uint64
  | float32
  | float64
  | string
  | slice (elem : GoType)
  | mapType (elem : GoType)
  | structType (fields : StructFields)
  | other (kindStr : String)

/-- An ordered list of struct fields: declared name, tag record, type. -/
inductive StructFields where
  | nil
  | cons (name : String) (tag : tsFieldTag) (ty : GoType) (rest : StructFields)
end

/-- reflect.Kind of the supported types. -/
inductive GoKind where
  | kInvalid
  | kBool
  | kInt
  | kInt8
  | kInt16
  | kInt32
  | kInt64
  | kUint
  | kUint8
  | kUint16
  | kUint32
  | kUint64
  | kFloat32
  | kFloat64
  | kString
  | kSlice
  | kMap
  | kStruct
deriving Repr, DecidableEq

/-- The reflect.Kind numbering (Go reflect/type.go), used by the source's
`elemKind >= reflect.Int && elemKind <= reflect.Int64` style range tests. -/
def reflectKindNum : GoKind → Nat
  | .kInvalid => 0
  | .kBool => 1
  | .kInt => 2
  | .kInt8 => 3
  | .kInt16 => 4
  | .kInt32 => 5
  | .kInt64 => 6
  | .kUint => 7
  | .kUint8 => 8
  | .kUint16 => 9
  | .kUint32 => 10
  | .kUint64 => 11
  | .kFloat32 => 13
  | .kFloat64 => 14
  | .kMap => 21
  | .kSlice => 23
  | .kString => 24
  | .kStruct => 25

/-- reflect.Type.Kind(): time.Duration has kind Int64. -/
def goKind : GoType → GoKind
  | .duration => .kInt64
  | .bool => .kBool
  | .int => .kInt
  | .int8 => .kInt8
  | .int16 => .kInt16
  | .int32 => .kInt32
  | .int64 => .kInt64
  | .uint => .kUint
  | .uint8 => .kUint8
  | .uint16 => .kUint16
  | .uint32 => .kUint32
  | .uint64 => .kUint64
  | .float32 => .kFloat32
  | .float64 => .kFloat64
  | .string => .kString
  | .slice _ => .kSlice
  | .mapType _ => .kMap
  | .structType _ => .kStruct
  | .other _ => .kInvalid

/-- Kind().String() for diagnostics. -/
def kindName : GoKind → String
  | .kInvalid => "invalid"
  | .kBool => "bool"
  | .kInt => "int"
  | .kInt8 => "int8"
  | .kInt16 => "int16"
  | .kInt32 => "int32"
  | .kInt64 => "int64"
  | .kUint => "uint"
  | .kUint8 => "uint8"
  | .kUint16 => "uint16"
  | .kUint32 => "uint32"
  | .kUint64 => "uint64"
  | .kFloat32 => "float32"
  | .kFloat64 => "float64"
  | .kString => "string"
  | .kSlice => "slice"
  | .kMap => "map"
  | .kStruct => "struct"

/-- The Go type's printed name, as it appears in reflect panic messages. -/
def typeName : GoType → String
  | .duration => "time.Duration"
  | .bool => "bool"
  | .int => "int"
  | .int8 => "int8"
  | .int16 => "int16"
  | .int32 => "int32"
  | .int64 => "int64"
  | .uint => "uint"
  | .uint8 => "uint8"
  | .uint16 => "uint16"
  | .uint32 => "uint32"
  | .uint64 => "uint64"
  | .float32 => "float32"
  | .float64 => "float64"
  | .string => "string"
  | .slice e => "[]" ++ typeName e
  | .mapType e => "map[string]" ++ typeName e
  | .structType _ => "struct {...}"
  | .other k => k

/-- Runtime Go values of the supported types.  A slice/map value carries its
element type (the dynamic type reflect sees); `vOther` is the opaque zero
value of an unsupported type. -/
inductive GoValue where
  | vDuration (nanos : Int)
  | vBool (b : Bool)
  | vInt (n : Int)
  | vInt8 (n : Int)
  | vInt16 (n : Int)
  | vInt32 (n : Int)
  | vInt64 (n : Int)
  | vUint (n : Nat)
  | vUint8 (n : Nat)
  | vUint16 (n : Nat)
  | vUint32 (n : Nat)
  | vUint64 (n : Nat)
  | vFloat32 (q : Rat)
  | vFloat64 (q : Rat)
  | vString (s : String)
  | vSlice (elem : GoType) (xs : List GoValue)
  | vMap (elem : GoType) (entries : List (String × GoValue))
  | vStructVal (xs : List GoValue)
  | vOther (kindStr : String)

mutual
/-- reflect.Zero: the structural zero value of a type (nil slices and maps
are modelled as empty). -/
def zeroValue : GoType → GoValue
  | .duration => .vDuration 0
  | .bool => .vBool false
  | .int => .vInt 0
  | .int8 => .vInt8 0
  | .int16 => .vInt16 0
  | .int32 => .vInt32 0
  | .int64 => .vInt64 0
  | .uint => .vUint 0
  | .uint8 => .vUint8 0
  | .uint16 => .vUint16 0
  | .uint32 => .vUint32 0
  | .uint64 => .vUint64 0
  | .float32 => .vFloat32 0
  | .float64 => .vFloat64 0
  | .string => .vString ""
  | .slice e => .vSlice e []
  | .mapType e => .vMap e []
  | .structType fs => .vStructVal (zeroValues fs)
  | .other k => .vOther k

/-- Zero values of a whole field list. -/
def zeroValues : StructFields → List GoValue
  | .nil => []
  | .cons _ _ ty rest => zeroValue ty :: zeroValues rest
end

/-! ### toKebabCase (function.go 248-284) -/

/-- The loop of toKebabCase, one Lean equation per Go loop iteration.  The
first argument is the whole input string `s` (the Go code indexes it as
`s[nextIndex+1]` where `nextIndex = len(result)`); the second is the
remaining input of the range loop; then the `result` accumulator and
`prevDash`. -/
def kebabLoop (s : List Char) : List Char → List Char → Bool → List Char
  | [], result, _ => result
  | r :: rest, result, prevDash =>
    if r = '.' ∨ r = ' ' ∨ r = '_' then
      if prevDash then kebabLoop s rest result true
      else kebabLoop s rest (result ++ ['-']) true
    else if goIsUpper r then
      let result' :=
        if result.length > 0 ∧ result.getLast? ≠ some '-' then
          if result.length < s.length - 1 then
            match s.get? (result.length + 1) with
            | some nextRune => if goIsLower nextRune then result ++ ['-'] else result
            | none => result
          else result
        else result
      kebabLoop s rest (result' ++ [goToLower r]) false
    else kebabLoop s rest (result ++ [r]) false

/-- strings.Trim(s, "-"). -/
def trimDashes (l : List Char) : List Char :=
  ((l.dropWhile (fun c => c = '-')).reverse.dropWhile (fun c => c = '-')).reverse

/-- toKebabCase (function.go 248-284). -/
def toKebabCase (s : String) : String :=
  String.mk (trimDashes (kebabLoop s.data s.data [] false))

/-! ### parseDefaultValue / parseSliceDefaultValue (function.go 287-365) -/

/-- The element loop of parseSliceDefaultValue (function.go 356-363),
parameterised by the element parser (the recursive `parseDefaultValue` call
at the element type): trim each element, parse it, and abort on the first
failure with a wrapped error. -/
def parseSliceElems (elemParse : String → Except String GoValue) :
    List String → Except String (List GoValue)
  | [] => .ok []
  | e :: rest =>
    let t := trimSpaceStr e
    match elemParse t with
    | .error err => .error ("解析切片元素 '" ++ t ++ "' 时出错: " ++ err)
    | .ok v =>
      match parseSliceElems elemParse rest with
      | .error m => .error m
      | .ok vs => .ok (v :: vs)

/-- parseDefaultValue (function.go 287-348).  The Go function receives a
reflect.Value and reads only its type, so the embedding takes the type
directly.  Empty text returns the zero value before any kind dispatch.  The
slice arm is the call to parseSliceDefaultValue (line 344) with that
function's body (function.go 351-365) inlined, so the recursion is
structural on the element type; the standalone `parseSliceDefaultValue`
below is that same body and is proved equal to this arm. -/
def parseDefaultValue (fieldType : GoType) (defaultStr : String) :
    Except String GoValue :=
  if defaultStr = "" then Except.ok (zeroValue fieldType)
  else
    match fieldType with
    | .duration =>
      match parseGoDuration defaultStr with
      | .error e => .error ("解析 time.Duration 类型的默认值失败: " ++ e)
      | .ok d => .ok (.vDuration d)
    | .bool => (goParseBool defaultStr).map .vBool
    | .int => (goParseInt defaultStr 64).map .vInt
    | .int8 => (goParseInt defaultStr 8).map .vInt8
    | .int16 => (goParseInt defaultStr 16).map .vInt16
    | .int32 => (goParseInt defaultStr 32).map .vInt32
    | .int64 => (goParseInt defaultStr 64).map .vInt64
    | .uint => (goParseUint defaultStr 64).map .vUint
    | .uint8 => (goParseUint defaultStr 8).map .vUint8
    | .uint16 => (goParseUint defaultStr 16).map .vUint16
    | .uint32 => (goParseUint defaultStr 32).map .vUint32
    | .uint64 => (goParseUint defaultStr 64).map .vUint64
    | .float32 => (goParseFloat defaultStr 32).map .vFloat32
    | .float64 => (goParseFloat defaultStr 64).map .vFloat64
    | .string => .ok (.vString defaultStr)
    | .slice e =>
      (parseSliceElems (fun x => parseDefaultValue e x) (splitComma defaultStr)).map
        (GoValue.vSlice e)
    | .mapType _ => .error ("不支持的类型: " ++ kindName .kMap)
    | .structType _ => .error ("不支持的类型: " ++ kindName .kStruct)
    | .other k => .error ("不支持的类型: " ++ k)
termination_by structural fieldType

/-- parseSliceDefaultValue (function.go 351-365): split on ',', trim each
element, parse it as the element type; the first failing element aborts with
a wrapped error.  The Go `reflect.MakeSlice` + per-index `Set`/`Convert`
builds exactly the list of parsed elements (`Convert` to the element's own
type is the identity). -/
def parseSliceDefaultValue (fieldType : GoType) (defaultStr : String) :
    Except String GoValue :=
  match fieldType with
  | .slice elemType =>
    (parseSliceElems (fun x => parseDefaultValue elemType x)
      (splitComma defaultStr)).map (GoValue.vSlice elemType)
  | t => .error ("reflect: Elem of invalid type " ++ typeName t)

/-- The slice arm of parseDefaultValue is exactly the source's call to
parseSliceDefaultValue (an empty default never reaches it). -/
theorem parseDefaultValue_slice (e : GoType) (s : String) (h : s ≠ "") :
    parseDefaultValue (.slice e) s = parseSliceDefaultValue (.slice e) s := by
  rw [parseDefaultValue, parseSliceDefaultValue, if_neg h]

/-! ### The parameter-set world: flag registry, environment, live bindings -/

/-- One registered parameter (a pflag entry).  `path` is the live binding: the
position of the bound field inside the configuration instance, which the
setter writes through (the Go code hands cobra a pointer to the field). -/
structure FlagEntry where
  name : String
  ty : GoType
  path : List Nat
  changed : Bool
  required : Bool
  usage : String

/-- The mutable state of one bind/parse run: the configuration instance's
field values (a tree: `vStructVal` nodes hold nested field lists), the flag
registry, and the diagnostics printed so far (fmt.Printf / log.Println). -/
structure World where
  vals : List GoValue
  flags : List FlagEntry
  diags : List String

/-- Write a field of the instance tree through a live-binding path. -/
def setAtPath : List GoValue → List Nat → GoValue → List GoValue
  | vals, [], _ => vals
  | vals, [i], v => vals.set i v
  | vals, i :: rest, v =>
    match vals.get? i with
    | some (.vStructVal inner) => vals.set i (.vStructVal (setAtPath inner rest v))
    | _ => vals

/-- The process environment.  Unlike `os.Getenv`, the OS distinguishes a
variable set to the empty string from an unset one, so the environment is an
association list and `lookupEnv` is `Option`-valued. -/
abbrev EnvMap := List (String × String)

/-- os.LookupEnv. -/
def lookupEnv (env : EnvMap) (k : String) : Option String :=
  (env.find? (fun p => p.1 = k)).map (·.2)

/-- os.Getenv: collapses unset and set-to-empty. -/
def osGetenv (env : EnvMap) (k : String) : String := (lookupEnv env k).getD ""

/-- pflag FlagSet.Lookup. -/
def flagLookup (flags : List FlagEntry) (n : String) : Option FlagEntry :=
  flags.find? (fun e => e.name = n)

/-- cmd.Flags().Changed(n): false for an unregistered name. -/
def flagChanged (flags : List FlagEntry) (n : String) : Bool :=
  ((flagLookup flags n).map (·.changed)).getD false

/-- Record that a parameter was explicitly set. -/
def markChanged (flags : List FlagEntry) (n : String) : List FlagEntry :=
  flags.map fun e => if e.name = n then { e with changed := true } else e

/-- Record a required-at-parse-time constraint. -/
def markRequiredFlag (flags : List FlagEntry) (n : String) : List FlagEntry :=
  flags.map fun e => if e.name = n then { e with required := true } else e

/-- Modelled from the spec: the parameter-set's SetValue parses `text` as the
registered kind (§6, §4.2 — collection kinds split on ',' and trim each
element like the default-value parser). -/
def flagTextParse (t : GoType) (text : String) : Except String GoValue :=
  match t with
  | .duration => (parseGoDuration text).map .vDuration
  | .bool => (goParseBool text).map .vBool
  | .int => (goParseInt text 64).map .vInt
  | .int8 => (goParseInt text 8).map .vInt8
  | .int16 => (goParseInt text 16).map .vInt16
  | .int32 => (goParseInt text 32).map .vInt32
  | .int64 => (goParseInt text 64).map .vInt64
  | .uint => (goParseUint text 64).map .vUint
  | .uint8 => (goParseUint text 8).map .vUint8
  | .uint16 => (goParseUint text 16).map .vUint16
  | .uint32 => (goParseUint text 32).map .vUint32
  | .uint64 => (goParseUint text 64).map .vUint64
  | .float32 => (goParseFloat text 32).map .vFloat32
  | .float64 => (goParseFloat text 64).map .vFloat64
  | .string => .ok (.vString text)
  | .slice e =>
    (parseSliceElems (fun x => parseDefaultValue e x) (splitComma text)).map
      (GoValue.vSlice e)
  | .mapType _ => .error "unsupported kind: map"
  | .structType _ => .error "unsupported kind: struct"
  | .other k => .error ("unsupported kind: " ++ k)

/-- Modelled from the spec: the parameter-set's mutation capability,
`cmd.Flags().Set(name, value)` — parse the text as the registered kind,
write it through the live binding, and record the parameter as explicitly
set; unknown names and parse failures are errors (§6). -/
def flagSetSet (w : World) (n v : String) : Except String World :=
  match flagLookup w.flags n with
  | none => .error ("no such flag -" ++ n)
  | some e =>
    match flagTextParse e.ty v with
    | .error msg =>
      .error ("invalid argument \"" ++ v ++ "\" for \"--" ++ n ++ "\" flag: " ++ msg)
    | .ok val =>
      .ok { w with vals := setAtPath w.vals e.path val, flags := markChanged w.flags n }

/-! ### The binder (function.go 29-246) -/

/-- The environment-override block of bindFieldTag (function.go 226-237),
run once per processed field. -/
def envStep (env : EnvMap) (flagName : String) (w : World) : World :=
  let envPrefix0 := osGetenv env "PREFIX_ACF"
  let envPrefix := if envPrefix0 = "" then "ACF_" else envPrefix0
  let envVar := envPrefix ++ goToUpper (replaceDashUnderscore flagName)
  let envValue := osGetenv env envVar
  if envValue ≠ "" ∧ flagChanged w.flags flagName = false then
    match flagSetSet w flagName envValue with
    | .error e =>
      { w with diags := w.diags ++
          ["从环境变量 " ++ envVar ++ " 设置标志 " ++ flagName ++ " 时出错: " ++ e] }
    | .ok w' => w'
  else w

/-- The required-marking block of bindFieldTag (function.go 240-244);
cmd.MarkFlagRequired errors only for an unknown parameter name (spec §7(c)). -/
def requiredStep (tag : tsFieldTag) (flagName : String) (w : World) : World :=
  if tag.Required = "true" then
    match flagLookup w.flags flagName with
    | some _ => { w with flags := markRequiredFlag w.flags flagName }
    | none =>
      { w with diags := w.diags ++
          ["标记标志 " ++ flagName ++ " 为必选时出错: no such flag -" ++ flagName] }
  else w

/-- reflect.Value.Int() of an int-family element (time.Duration included). -/
def goValInt : GoValue → Int
  | .vInt n | .vInt8 n | .vInt16 n | .vInt32 n | .vInt64 n | .vDuration n => n
  | _ => 0

/-- reflect.Value.Uint() of a uint-family element. -/
def goValUint : GoValue → Nat
  | .vUint n | .vUint8 n | .vUint16 n | .vUint32 n | .vUint64 n => n
  | _ => 0

/-- The elements of a slice value. -/
def sliceElemsOf : GoValue → List GoValue
  | .vSlice _ xs => xs
  | _ => []

/-- Write the default into the field's storage and register the parameter:
the `fieldVal.Set…` + `cmd.Flags().…Var` pair each switch case performs. -/
def writeAndRegister (w : World) (p : List Nat) (flagName usage : String)
    (regTy : GoType) (dv : GoValue) : World :=
  { w with vals := setAtPath w.vals p dv,
           flags := w.flags ++ [⟨flagName, regTy, p, false, false, usage⟩] }

/-- The slice arm of the bindFieldTag switch (function.go 156-201).  The
int/uint range cases convert the default to []int/[]uint for cobra and then
`fieldVal.Set` the converted slice back into the field — which panics with a
reflect.Set type mismatch unless the field really is []int/[]uint.  The
dedicated Int32/Int64 cases (lines 173-180) are shadowed by the preceding
range case, and are kept here just as unreachable in the source. -/
def registerSliceField (w : World) (p : List Nat) (flagName usage : String)
    (elemType : GoType) (dv : GoValue) : Except String World :=
  let ek := reflectKindNum (goKind elemType)
  if ek = reflectKindNum .kString then
    .ok (writeAndRegister w p flagName usage (.slice elemType) dv)
  else if 2 ≤ ek ∧ ek ≤ 6 then
    let intSlice := (sliceElemsOf dv).map (fun x => GoValue.vInt (goValInt x))
    match elemType with
    | .int => .ok (writeAndRegister w p flagName usage (.slice .int) (.vSlice .int intSlice))
    | t => .error ("reflect.Set: value of type []int is not assignable to type []" ++ typeName t)
  else if ek = reflectKindNum .kInt32 then .ok w
  else if ek = reflectKindNum .kInt64 then .ok w
  else if ek = reflectKindNum .kFloat64 then
    .ok (writeAndRegister w p flagName usage (.slice elemType) dv)
  else if ek = reflectKindNum .kBool then
    .ok (writeAndRegister w p flagName usage (.slice elemType) dv)
  else if 7 ≤ ek ∧ ek ≤ 11 then
    let uintSlice := (sliceElemsOf dv).map (fun x => GoValue.vUint (goValUint x))
    match elemType with
    | .uint => .ok (writeAndRegister w p flagName usage (.slice .uint) (.vSlice .uint uintSlice))
    | t => .error ("reflect.Set: value of type []uint is not assignable to type []" ++ typeName t)
  else
    .ok { w with diags := w.diags ++ ["不支持的切片元素类型 " ++ kindName (goKind elemType)] }

/-- The map arm of the bindFieldTag switch (function.go 202-217).  A map
field can only reach it with an empty default (a non-empty one fails
parseDefaultValue first), so the asserted default is the nil map. -/
def registerMapField (w : World) (p : List Nat) (flagName usage : String)
    (elemType : GoType) (dv : GoValue) : Except String World :=
  let ek := reflectKindNum (goKind elemType)
  if ek = reflectKindNum .kString then
    .ok (writeAndRegister w p flagName usage (.mapType elemType) dv)
  else if ek = reflectKindNum .kInt then
    .ok (writeAndRegister w p flagName usage (.mapType elemType) dv)
  else
    .ok { w with diags := w.diags ++ ["utils.go 不支持的 map 元素类型 " ++ kindName (goKind elemType)] }

/-- The type-dispatch switch of bindFieldTag (function.go 84-223) for
non-struct fields; each scalar case writes the parsed default into the field
and registers the matching cobra parameter.  The interface assertions
`defaultValue.(T)` always succeed here because parseDefaultValue returned a
value of the field's own type.  The struct case (recursion) is handled by
the caller `bindFields`. -/
def registerField (w : World) (p : List Nat) (flagName usage : String)
    (ty : GoType) (dv : GoValue) : Except String World :=
  match ty with
  | .duration => .ok (writeAndRegister w p flagName usage .duration dv)
  | .bool => .ok (writeAndRegister w p flagName usage .bool dv)
  | .int => .ok (writeAndRegister w p flagName usage .int dv)
  | .int8 => .ok (writeAndRegister w p flagName usage .int8 dv)
  | .int16 => .ok (writeAndRegister w p flagName usage .int16 dv)
  | .int32 => .ok (writeAndRegister w p flagName usage .int32 dv)
  | .int64 => .ok (writeAndRegister w p flagName usage .int64 dv)
  | .float32 => .ok (writeAndRegister w p flagName usage .float32 dv)
  | .float64 => .ok (writeAndRegister w p flagName usage .float64 dv)
  | .uint => .ok (writeAndRegister w p flagName usage .uint dv)
  | .uint8 => .ok (writeAndRegister w p flagName usage .uint8 dv)
  | .uint16 => .ok (writeAndRegister w p flagName usage .uint16 dv)
  | .uint32 => .ok (writeAndRegister w p flagName usage .uint32 dv)
  | .uint64 => .ok (writeAndRegister w p flagName usage .uint64 dv)
  | .string => .ok (writeAndRegister w p flagName usage .string dv)
  | .slice e => registerSliceField w p flagName usage e dv
  | .mapType e => registerMapField w p flagName usage e dv
  | .structType _ => .ok w
  | .other k => .ok { w with diags := w.diags ++ ["utils.go 不支持的类型 " ++ k] }

/-- reflect.Value.CanSet() of a field of an addressable struct: true exactly
for exported (upper-case-initial) field names. -/
def isExportedName (s : String) : Bool := goIsUpper (s.data.headD 'a')

mutual
/-- The field loop of bindFieldTag (function.go 29-246).  `pfx` is the Go
`prefix` argument, `path`/`i` locate the current struct and field inside the
configuration instance, `w` carries the instance values, flag registry and
diagnostics.  A reflect panic is the `Except.error` case and aborts the
whole traversal. -/
def bindFields (env : EnvMap) (groupNames : List String) (pfx : String)
    (path : List Nat) (i : Nat) (fields : StructFields) (w : World) :
    Except String World :=
  match fields with
  | .nil => .ok w
  | .cons name tag ty rest =>
    if isExportedName name = false then
      bindFields env groupNames pfx path (i + 1) rest w
    else if tag.Bind = "false" then
      bindFields env groupNames pfx path (i + 1) rest w
    else if tag.Group ≠ "" ∧ groupNames.contains tag.Group = false then
      bindFields env groupNames pfx path (i + 1) rest w
    else
      let flagName0 := if pfx ≠ "" then pfx ++ "." ++ name else name
      let flagName := if tag.Flag ≠ "" then tag.Flag else toKebabCase flagName0
      let usage := tag.Note
      match parseDefaultValue ty tag.Default with
      | .error err =>
        bindFields env groupNames pfx path (i + 1) rest
          { w with diags := w.diags ++ ["解析字段 " ++ flagName ++ " 的默认值时出错: " ++ err] }
      | .ok defaultValue =>
        match bindFieldSwitch env groupNames flagName (path ++ [i]) usage ty defaultValue w with
        | .error p => .error p
        | .ok w1 =>
          let w2 := envStep env flagName w1
          bindFields env groupNames pfx path (i + 1) rest (requiredStep tag flagName w2)

/-- The type-dispatch step of one field (the switch of function.go 84-223):
a nested structure recurses into its fields with the field's flag name as
the new prefix (line 218-220); every other type registers through
`registerField`. -/
def bindFieldSwitch (env : EnvMap) (groupNames : List String)
    (flagName : String) (p : List Nat) (usage : String) (ty : GoType)
    (dv : GoValue) (w : World) : Except String World :=
  match ty with
  | .structType fs => bindFields env groupNames flagName p 0 fs w
  | t => registerField w p flagName usage t dv
end

/-- bindFieldTag (function.go 29): bind a configuration structure (field
list plus current values) against a fresh parameter-set, for the given
active groups.  Returns the final world, or the panic message if the bind
aborted. -/
def bindFieldTag (env : EnvMap) (fields : StructFields) (vals : List GoValue)
    (pfx : String) (groupNames : List String) : Except String World :=
  bindFields env groupNames pfx [] 0 fields ⟨vals, [], []⟩

/-- Modelled from the spec: after bind, the surrounding command-line
framework parses the explicit arguments, applying each through the
parameter-set's setter (which records the parameter as explicitly set). -/
def parseArgs (args : List (String × String)) (w : World) : Except String World :=
  match args with
  | [] => .ok w
  | (n, v) :: rest =>
    match flagSetSet w n v with
    | .error e => .error e
    | .ok w' => parseArgs rest w'

/-- One whole resolution run: bind (defaults + environment overrides), then
explicit-argument parsing. -/
def runBindParse (env : EnvMap) (fields : StructFields) (vals : List GoValue)
    (groupNames : List String) (args : List (String × String)) :
    Except String World :=
  match bindFieldTag env fields vals "" groupNames with
  | .error e => .error e
  | .ok w => parseArgs args w

/-! ### The three-tier precedence scenario (spec §8, claim C3) -/

/-- A one-field configuration: field `Port` of type `t` with default "10"
and no other tags. -/
def c3Field (t : GoType) : StructFields :=
  .cons "Port" ⟨"", "10", "", "", "", ""⟩ t .nil

/-- Bind the one-field configuration (zero-valued, no active groups) under
`env`, then let the framework parse `args`; return the field's final
resolved value. -/
def c3Run (t : GoType) (env : EnvMap) (args : List (String × String)) :
    Option GoValue :=
  match runBindParse env (c3Field t) [zeroValue t] [] args with
  | .error _ => none
  | .ok w => w.vals.head?

/-- The value `n` (rendered from text `s`) at each kind of `c3Kinds`: the
numeric kinds carry the number, the string kind carries the text, a slice
kind carries the one-element slice. -/
def c3Val (t : GoType) (n : Int) (s : String) : GoValue :=
  match t with
  | .int => .vInt n
  | .int8 => .vInt8 n
  | .int16 => .vInt16 n
  | .int32 => .vInt32 n
  | .int64 => .vInt64 n
  | .uint => .vUint n.toNat
  | .uint8 => .vUint8 n.toNat
  | .uint16 => .vUint16 n.toNat
  | .uint32 => .vUint32 n.toNat
  | .uint64 => .vUint64 n.toNat
  | .float32 => .vFloat32 (n : Rat)
  | .float64 => .vFloat64 (n : Rat)
  | .string => .vString s
  | .slice e => .vSlice e [c3Val e n s]
  | _ => .vString "unreachable"

/-- Every leaf field kind that binds successfully with default text "10":
the full int/uint/float/string scalar family and the slice kinds the
engine's slice dispatch registers without panicking.  (duration/bool/map
kinds fail to parse "10" and are skipped — never bound; []int8-style slice
kinds panic, see claim C1.) -/
def c3Kinds : List GoType :=
  [.int, .int8, .int16, .int32, .int64,
   .uint, .uint8, .uint16, .uint32, .uint64,
   .float32, .float64, .string,
   .slice .int, .slice .uint, .slice .float64, .slice .string]

/-! ### The naming rule exactly as claim C2 words it -/

/-- Claim C2's camel-splitting rule, written from the claim's words for
refinement comparison: a separator becomes a hyphen boundary; an upper-case
character that has at least one preceding character and is immediately
followed by a lower-case character gets a hyphen inserted before it; every
letter is lower-cased.  `prev` records whether a character precedes. -/
def claimKebabCore : Option Char → List Char → List Char
  | _, [] => []
  | prev, c :: rest =>
    if c = '.' ∨ c = ' ' ∨ c = '_' then '-' :: claimKebabCore (some c) rest
    else if prev.isSome = true ∧ goIsUpper c = true ∧
        (match rest.head? with | some d => goIsLower d | none => false) = true then
      '-' :: goToLower c :: claimKebabCore (some c) rest
    else goToLower c :: claimKebabCore (some c) rest

/-- Collapse every run of consecutive hyphens into exactly one. -/
def collapseDashes : List Char → List Char
  | [] => []
  | [a] => [a]
  | a :: b :: rest =>
    if a = '-' ∧ b = '-' then collapseDashes (b :: rest)
    else a :: collapseDashes (b :: rest)

/-- The conversion exactly as claim C2 describes it: split (separators and
upper-lower camel boundaries), collapse consecutive boundaries, lower-case,
trim edge hyphens. -/
def claimKebab (s : String) : String :=
  String.mk (trimDashes (collapseDashes (claimKebabCore none s.data)))

/-- The camel-boundary rule toKebabCase actually implements, restated over
an explicit source index `j` (the amended claim C2): at an upper-case
character, a hyphen is inserted exactly when the output built so far is
non-empty, does not end in a hyphen, and the character of the ORIGINAL
string at index (output length + 1) exists before the last index and is
lower-case — an index that coincides with "the next character" only until a
hyphen has been inserted or separators have collapsed. -/
def amendedKebabLoop (s : List Char) (j : Nat) (out : List Char) (pd : Bool) :
    List Char :=
  match h : s.get? j with
  | none => out
  | some r =>
    if r = '.' ∨ r = ' ' ∨ r = '_' then
      if pd then amendedKebabLoop s (j + 1) out true
      else amendedKebabLoop s (j + 1) (out ++ ['-']) true
    else if goIsUpper r then
      let out' :=
        if out.length > 0 ∧ out.getLast? ≠ some '-' then
          if out.length < s.length - 1 then
            match s.get? (out.length + 1) with
            | some nextRune => if goIsLower nextRune then out ++ ['-'] else out
            | none => out
          else out
        else out
      amendedKebabLoop s (j + 1) (out' ++ [goToLower r]) false
    else amendedKebabLoop s (j + 1) (out ++ [r]) false
termination_by s.length - j
decreasing_by
  all_goals
    obtain ⟨hlt, -⟩ := List.get?_eq_some.mp h
    omega

/-- toKebabCase as the amended claim C2 describes it. -/
def toKebabAmended (s : String) : String :=
  String.mk (trimDashes (amendedKebabLoop s.data 0 [] false))

/-! ### Kebab-form strings (claim C9) -/

/-- A character allowed in kebab form: lower-case letter, digit, hyphen. -/
def isKebabChar (c : Char) : Bool := goIsLower c || goIsDigit c || c == '-'

/-- No two consecutive hyphens. -/
def noDoubleDash : List Char → Bool
  | a :: b :: r => !(a == '-' && b == '-') && noDoubleDash (b :: r)
  | _ => true

/-- Kebab form as claim C9 words it: lower-case letters, digits, and single
interior hyphens. -/
def isKebabStr (s : String) : Bool :=
  s.data.all isKebabChar && !(s.data.head? == some '-') &&
    !(s.data.getLast? == some '-') && noDoubleDash s.data

/-! ### The environment-override rule as claim C8 words it -/

/-- The environment override exactly as claim C8 words it, for refinement
comparison: the key is PREFIX (the value of PREFIX_ACF, or "ACF_" when that
variable is unset or empty) followed by the upper-cased, underscored flag
name, and the override is applied through the parameter-set's setter exactly
when that variable IS SET in the environment (possibly to the empty string)
and the flag is not yet explicitly set. -/
def envStepClaim (env : EnvMap) (flagName : String) (w : World) : World :=
  let envPrefix :=
    match lookupEnv env "PREFIX_ACF" with
    | none => "ACF_"
    | some q => if q = "" then "ACF_" else q
  let envVar := envPrefix ++ goToUpper (replaceDashUnderscore flagName)
  match lookupEnv env envVar with
  | none => w
  | some v =>
    if flagChanged w.flags flagName = false then
      match flagSetSet w flagName v with
      | .error e =>
        { w with diags := w.diags ++
            ["从环境变量 " ++ envVar ++ " 设置标志 " ++ flagName ++ " 时出错: " ++ e] }
      | .ok w' => w'
    else w

/-- The environment override as the amended claim C8 words it: identical to
`envStepClaim` except that the override is applied exactly when the variable
is set TO A NON-EMPTY VALUE and the flag is not yet explicitly set. -/
def envStepAmended (env : EnvMap) (flagName : String) (w : World) : World :=
  let envPrefix :=
    match lookupEnv env "PREFIX_ACF" with
    | none => "ACF_"
    | some q => if q = "" then "ACF_" else q
  let envVar := envPrefix ++ goToUpper (replaceDashUnderscore flagName)
  match lookupEnv env envVar with
  | none => w
  | some v =>
    if v ≠ "" ∧ flagChanged w.flags flagName = false then
      match flagSetSet w flagName v with
      | .error e =>
        { w with diags := w.diags ++
            ["从环境变量 " ++ envVar ++ " 设置标志 " ++ flagName ++ " 时出错: " ++ e] }
      | .ok w' => w'
    else w

/-! ### Helper lemmas: toKebabCase -/

/-- A drop that yields a cons pins down `get?` and the next drop. -/
theorem drop_cons_get {α : Type} :
    ∀ (s : List α) (j : Nat) (r : α) (t : List α),
      s.drop j = r :: t → s.get? j = some r ∧ s.drop (j + 1) = t := by
  intro s
  induction s with
  | nil => intro j r t h; simp at h
  | cons a s ih =>
    intro j r t h
    cases j with
    | zero =>
      simp only [List.drop_zero] at h
      cases h
      exact ⟨rfl, by simp⟩
    | succ j =>
      simpa using ih j r t (by simpa using h)

/-- A drop that yields nil pins `get?` to none. -/
theorem drop_nil_get {α : Type} (s : List α) (j : Nat) (h : s.drop j = []) :
    s.get? j = none := by
  rw [List.get?_eq_none]
  have := congrArg List.length h
  simp [List.length_drop] at this
  omega

/-- amendedKebabLoop at an exhausted index. -/
theorem amendedKebabLoop_none (s : List Char) (j : Nat) (out : List Char)
    (pd : Bool) (h1 : s.get? j = none) : amendedKebabLoop s j out pd = out := by
  rw [amendedKebabLoop]
  split
  · rfl
  · rename_i r heq
    rw [h1] at heq
    exact Option.noConfusion heq

/-- amendedKebabLoop at a live index: one unfolded step. -/
theorem amendedKebabLoop_some (s : List Char) (j : Nat) (out : List Char)
    (pd : Bool) (r : Char) (h1 : s.get? j = some r) :
    amendedKebabLoop s j out pd =
      (if r = '.' ∨ r = ' ' ∨ r = '_' then
        if pd then amendedKebabLoop s (j + 1) out true
        else amendedKebabLoop s (j + 1) (out ++ ['-']) true
      else if goIsUpper r then
        amendedKebabLoop s (j + 1)
          ((if out.length > 0 ∧ out.getLast? ≠ some '-' then
              if out.length < s.length - 1 then
                match s.get? (out.length + 1) with
                | some nextRune => if goIsLower nextRune then out ++ ['-'] else out
                | none => out
              else out
            else out) ++ [goToLower r]) false
      else amendedKebabLoop s (j + 1) (out ++ [r]) false) := by
  rw [amendedKebabLoop]
  split
  · rename_i heq
    rw [h1] at heq
    exact Option.noConfusion heq
  · rename_i r' heq
    rw [h1] at heq
    injection heq with hr
    subst hr
    rfl

/-- The source loop of toKebabCase and its index-based restatement agree. -/
theorem kebabLoop_eq_amended (s : List Char) :
    ∀ (t : List Char) (j : Nat) (out : List Char) (pd : Bool),
      s.drop j = t → kebabLoop s t out pd = amendedKebabLoop s j out pd := by
  intro t
  induction t with
  | nil =>
    intro j out pd h
    rw [kebabLoop, amendedKebabLoop_none s j out pd (drop_nil_get s j h)]
  | cons r t ih =>
    intro j out pd h
    obtain ⟨h1, h2⟩ := drop_cons_get s j r t h
    rw [kebabLoop, amendedKebabLoop_some s j out pd r h1]
    by_cases hsep : r = '.' ∨ r = ' ' ∨ r = '_'
    · rw [if_pos hsep, if_pos hsep]
      by_cases hpd : pd = true
      · rw [if_pos hpd, if_pos hpd, ih (j + 1) out true h2]
      · rw [if_neg hpd, if_neg hpd, ih (j + 1) (out ++ ['-']) true h2]
    · rw [if_neg hsep, if_neg hsep]
      by_cases hup : goIsUpper r = true
      · rw [if_pos hup, if_pos hup]
        exact ih (j + 1) _ false h2
      · rw [if_neg hup, if_neg hup, ih (j + 1) (out ++ [r]) false h2]

/-! ### Helper lemmas: kebab-form fixed point -/

/-- A kebab-form character is not a separator. -/
theorem isKebabChar_not_sep (c : Char) (h : isKebabChar c = true) :
    ¬(c = '.' ∨ c = ' ' ∨ c = '_') := by
  rintro (rfl | rfl | rfl) <;> revert h <;> decide

/-- A kebab-form character is not upper-case. -/
theorem isKebabChar_not_upper (c : Char) (h : isKebabChar c = true) :
    ¬ goIsUpper c = true := by
  intro hup
  simp only [isKebabChar, Bool.or_eq_true, beq_iff_eq] at h
  rcases h with (h | h) | rfl
  · simp only [goIsLower, goIsUpper, Bool.and_eq_true, decide_eq_true_eq] at h hup
    omega
  · simp only [goIsDigit, goIsUpper, Bool.and_eq_true, decide_eq_true_eq] at h hup
    omega
  · revert hup
    decide

/-- On input made of kebab-form characters the toKebabCase loop copies its
input unchanged. -/
theorem kebabLoop_plain (s : List Char) :
    ∀ (t out : List Char) (pd : Bool),
      (∀ c ∈ t, isKebabChar c = true) → kebabLoop s t out pd = out ++ t := by
  intro t
  induction t with
  | nil => intro out pd _; rw [kebabLoop]; simp
  | cons c t ih =>
    intro out pd hall
    have hc := hall c (List.mem_cons_self c t)
    rw [kebabLoop, if_neg (isKebabChar_not_sep c hc),
      if_neg (isKebabChar_not_upper c hc),
      ih (out ++ [c]) false (fun d hd => hall d (List.mem_cons_of_mem c hd))]
    simp

/-- trimDashes is the identity when neither edge is a hyphen. -/
theorem trimDashes_eq (l : List Char) (h1 : l.head? ≠ some '-')
    (h2 : l.getLast? ≠ some '-') : trimDashes l = l := by
  unfold trimDashes
  have e1 : l.dropWhile (fun c => c = '-') = l := by
    cases l with
    | nil => rfl
    | cons a t =>
      have ha : ¬(a = '-') := fun hh => h1 (by simp [hh])
      simp [List.dropWhile_cons, ha]
  rw [e1]
  have e2 : l.reverse.dropWhile (fun c => c = '-') = l.reverse := by
    cases hr : l.reverse with
    | nil => rfl
    | cons a t =>
      have ha : l.getLast? = some a := by
        rw [← List.head?_reverse, hr]
        rfl
      have hne : ¬(a = '-') := fun hh => h2 (by rw [ha, hh])
      simp [List.dropWhile_cons, hne]
  rw [e2, List.reverse_reverse]

/-- toKebabCase fixes every kebab-form string. -/
theorem toKebabCase_fixed (s : String) (h : isKebabStr s = true) :
    toKebabCase s = s := by
  simp only [isKebabStr, Bool.and_eq_true, List.all_eq_true, Bool.not_eq_true',
    beq_eq_false_iff_ne, ne_eq] at h
  obtain ⟨⟨⟨hall, hh⟩, hl⟩, -⟩ := h
  unfold toKebabCase
  rw [kebabLoop_plain s.data s.data [] false hall, List.nil_append,
    trimDashes_eq s.data hh hl]

/-! ### Claims C2 and C9 -/

/-- C2, counterexample: on "AbCdEf" the code yields "ab-cdef" while the
claim's rule (split at every position where an upper-case character is
immediately followed by a lower-case one, after at least one preceding
character) yields "ab-cd-ef": in the source, the camel look-ahead indexes
the input at `len(result)+1`, which stops matching the next character once a
hyphen has been inserted, so the boundary before "Ef" is missed. -/
theorem mflag_c2_camel_rule_counterexample :
    toKebabCase "AbCdEf" = "ab-cdef" ∧ claimKebab "AbCdEf" = "ab-cd-ef" ∧
      ("ab-cdef" : String) ≠ "ab-cd-ef" :=
  ⟨rfl, rfl, by decide⟩

/-- C2 (amended): toKebabCase splits at literal '.', space and underscore
(collapsing runs into one hyphen); at an upper-case character it inserts a
hyphen exactly when the output built so far is non-empty, does not end in a
hyphen, and the input character at index (output length + 1) exists before
the last position and is lower-case — which coincides with the
upper-followed-by-lower rule only until a hyphen has been inserted or
separators have collapsed; every letter is lower-cased and edge hyphens are
trimmed.  In particular toKebabCase("MaxRetries") = "max-retries". -/
theorem mflag_c2_kebab_amended :
    (∀ s : String, toKebabCase s = toKebabAmended s) ∧
      toKebabCase "MaxRetries" = "max-retries" := by
  refine ⟨fun s => ?_, rfl⟩
  unfold toKebabCase toKebabAmended
  rw [kebabLoop_eq_amended s.data s.data 0 [] false (by simp)]

/-- C9: toKebabCase is idempotent on kebab-form strings (lower-case letters,
digits and single interior hyphens): it fixes them, so applying it twice
equals applying it once. -/
theorem mflag_c9_kebab_idempotent (s : String) (h : isKebabStr s = true) :
    toKebabCase (toKebabCase s) = toKebabCase s := by
  rw [toKebabCase_fixed s h]
  exact toKebabCase_fixed s h

/-- C9 witness: the concrete kebab string "max-retries". -/
theorem mflag_c9_witness :
    isKebabStr "max-retries" = true ∧
      toKebabCase (toKebabCase "max-retries") = toKebabCase "max-retries" :=
  ⟨by decide, mflag_c9_kebab_idempotent "max-retries" (by decide)⟩

/-! ### Helper lemmas: slice default parsing -/

/-- If every split element parses (mapM succeeds), the element loop returns
exactly the parsed list. -/
theorem parseSliceElems_ok_of_mapM (p : String → Except String GoValue) :
    ∀ (l : List String) (vs : List GoValue),
      l.mapM (fun x => p (trimSpaceStr x)) = .ok vs →
        parseSliceElems p l = .ok vs := by
  intro l
  induction l with
  | nil =>
    intro vs h
    simp only [List.mapM_nil, pure] at h
    injection h with h
    subst h
    rfl
  | cons e rest ih =>
    intro vs h
    rw [List.mapM_cons] at h
    cases hpe : p (trimSpaceStr e) with
    | error m => rw [hpe] at h; exact Except.noConfusion h
    | ok v =>
      rw [hpe] at h
      cases hrest : rest.mapM (fun x => p (trimSpaceStr x)) with
      | error m =>
        rw [hrest] at h
        exact Except.noConfusion h
      | ok vt =>
        rw [hrest] at h
        simp only [bind, Except.bind, pure, Except.pure] at h
        injection h with h
        subst h
        rw [parseSliceElems]
        simp only [hpe, ih vt hrest]

/-- If some split element fails to parse, the element loop returns the
wrapped error of the first failing element: the error names the element's
trimmed text (and nothing else). -/
theorem parseSliceElems_error_of_mem (p : String → Except String GoValue) :
    ∀ (l : List String),
      (∃ x ∈ l, ∃ m, p (trimSpaceStr x) = .error m) →
        ∃ x m, x ∈ l ∧ p (trimSpaceStr x) = .error m ∧
          parseSliceElems p l =
            .error ("解析切片元素 '" ++ trimSpaceStr x ++ "' 时出错: " ++ m) := by
  intro l
  induction l with
  | nil =>
    rintro ⟨x, hx, -⟩
    cases hx
  | cons e rest ih =>
    rintro ⟨x, hx, m, hm⟩
    cases hpe : p (trimSpaceStr e) with
    | error m' =>
      refine ⟨e, m', List.mem_cons_self e rest, hpe, ?_⟩
      rw [parseSliceElems]
      simp only [hpe]
    | ok v =>
      have hxr : x ∈ rest := by
        rcases List.mem_cons.mp hx with rfl | hr
        · rw [hpe] at hm; exact Except.noConfusion hm
        · exact hr
      obtain ⟨x', m', hx', hm', hrec⟩ := ih ⟨x, hxr, m, hm⟩
      refine ⟨x', m', List.mem_cons_of_mem e hx', hm', ?_⟩
      rw [parseSliceElems]
      simp only [hpe, hrec]

/-! ### Claims C1, C4, C5, C6 -/

/-- C1: the claim (and spec §7) say bind never aborts fatally, but the code
PANICS on a []int64 field: the slice dispatch matches the Int..Int64 kind
range, converts the default to []int for cobra, and then reflect.Set's the
[]int value into the []int64 field — a type mismatch panic that aborts the
whole bindFieldTag traversal.  The same happens for []int8, []int16,
[]int32, []uint8..[]uint64 and []time.Duration fields. -/
theorem mflag_c1_slice_int64_bind_panics :
    bindFieldTag [] (.cons "Nums" ⟨"", "", "", "", "", ""⟩ (.slice .int64) .nil)
        [.vSlice .int64 []] "" [] =
      .error "reflect.Set: value of type []int is not assignable to type []int64" :=
  rfl

/-- C4, counterexample: the element error of parseSliceDefaultValue does not
identify the failing element's position — "x,9" (failure at position 0) and
"9,x" (failure at position 1) produce the identical error message, so the
error cannot identify the position, contrary to the claim. -/
theorem mflag_c4_position_counterexample :
    parseSliceDefaultValue (.slice .int) "x,9" =
        .error "解析切片元素 'x' 时出错: strconv.ParseInt: parsing \"x\": invalid syntax" ∧
      parseSliceDefaultValue (.slice .int) "9,x" =
        .error "解析切片元素 'x' 时出错: strconv.ParseInt: parsing \"x\": invalid syntax" :=
  ⟨rfl, rfl⟩

/-- C4 (amended): for every slice field and default text in which at least
one comma-separated element fails to parse as the element kind,
parseSliceDefaultValue returns an error that identifies the failing element
by its trimmed text (though not its numeric position), and returns no
partial slice — the whole field's parse yields no value. -/
theorem mflag_c4_slice_element_error (e : GoType) (s : String)
    (h : ∃ x ∈ splitComma s, ∃ m, parseDefaultValue e (trimSpaceStr x) = .error m) :
    ∃ x m, x ∈ splitComma s ∧ parseDefaultValue e (trimSpaceStr x) = .error m ∧
      parseSliceDefaultValue (.slice e) s =
        .error ("解析切片元素 '" ++ trimSpaceStr x ++ "' 时出错: " ++ m) := by
  obtain ⟨x, m, hx, hm, hres⟩ :=
    parseSliceElems_error_of_mem (fun y => parseDefaultValue e y) (splitComma s) h
  refine ⟨x, m, hx, hm, ?_⟩
  rw [parseSliceDefaultValue, hres]
  rfl

/-- C4 witness: the spec's own example "1,x,3". -/
theorem mflag_c4_witness :
    ∃ x m, x ∈ splitComma "1,x,3" ∧
      parseDefaultValue .int (trimSpaceStr x) = .error m ∧
      parseSliceDefaultValue (.slice .int) "1,x,3" =
        .error ("解析切片元素 '" ++ trimSpaceStr x ++ "' 时出错: " ++ m) :=
  mflag_c4_slice_element_error .int "1,x,3"
    ⟨"x", by decide, "strconv.ParseInt: parsing \"x\": invalid syntax", rfl⟩

/-- C5: for every slice field whose elements all parse,
parseSliceDefaultValue splits the default text on ',', trims surrounding
whitespace from each element, and parses each element independently as the
element kind; in particular for an int-slice field "1, 2,3" parses to
[1,2,3]. -/
theorem mflag_c5_slice_parse :
    (∀ (e : GoType) (s : String) (vs : List GoValue),
        (splitComma s).mapM (fun x => parseDefaultValue e (trimSpaceStr x)) = .ok vs →
          parseSliceDefaultValue (.slice e) s = .ok (.vSlice e vs)) ∧
      parseSliceDefaultValue (.slice .int) "1, 2,3" =
        .ok (.vSlice .int [.vInt 1, .vInt 2, .vInt 3]) := by
  constructor
  · intro e s vs h
    rw [parseSliceDefaultValue,
      parseSliceElems_ok_of_mapM (fun y => parseDefaultValue e y) (splitComma s) vs h]
    rfl
  · rfl

/-- C5 witness: a concrete successful slice parse through the universal
part. -/
theorem mflag_c5_witness :
    (splitComma "4, 5").mapM (fun x => parseDefaultValue .int (trimSpaceStr x)) =
        .ok [.vInt 4, .vInt 5] ∧
      parseSliceDefaultValue (.slice .int) "4, 5" =
        .ok (.vSlice .int [.vInt 4, .vInt 5]) :=
  ⟨rfl, mflag_c5_slice_parse.1 .int "4, 5" [.vInt 4, .vInt 5] rfl⟩

/-- C6: for every field type (slices, maps, structs and unsupported kinds
included), parseDefaultValue applied to the empty string returns the
structural zero value of the type and no error. -/
theorem mflag_c6_empty_default_zero (t : GoType) :
    parseDefaultValue t "" = .ok (zeroValue t) := by
  rw [parseDefaultValue.eq_def]
  rfl

/-! ### Claim C3 -/

/-- C3: three-tier precedence for every leaf field kind that binds with
default text "10" (c3Kinds): with the field's environment variable ACF_PORT
set to "20" and an explicit argument "30", the final resolved value is 30;
with the environment variable but no explicit argument it is 20; with
neither override it is 10.  (The parameter-set itself is the spec-modelled
collaborator; kinds whose parse of "10" fails are skipped by the engine and
never bound, and []int8-style slice kinds panic — claim C1.) -/
theorem mflag_c3_three_tier_precedence :
    ∀ t ∈ c3Kinds,
      c3Run t [("ACF_PORT", "20")] [("port", "30")] = some (c3Val t 30 "30") ∧
        c3Run t [("ACF_PORT", "20")] [] = some (c3Val t 20 "20") ∧
        c3Run t [] [] = some (c3Val t 10 "10") := by
  intro t ht
  simp only [c3Kinds, List.mem_cons, List.not_mem_nil, or_false] at ht
  rcases ht with rfl | rfl | rfl | rfl | rfl | rfl | rfl | rfl | rfl | rfl |
    rfl | rfl | rfl | rfl | rfl | rfl | rfl <;>
    exact ⟨rfl, rfl, rfl⟩

/-- C3 witness: the int field. -/
theorem mflag_c3_witness :
    GoType.int ∈ c3Kinds ∧
      (c3Run .int [("ACF_PORT", "20")] [("port", "30")] = some (c3Val .int 30 "30") ∧
        c3Run .int [("ACF_PORT", "20")] [] = some (c3Val .int 20 "20") ∧
        c3Run .int [] [] = some (c3Val .int 10 "10")) :=
  ⟨List.Mem.head _, mflag_c3_three_tier_precedence .int (List.Mem.head _)⟩

/-! ### Claim C7 -/

/-- C7: a field whose bind tag is "false" is skipped before anything else
happens — no parameter registration, no storage write, no recursion, no
diagnostic (even for a malformed default or an unsupported type): processing
the field list with it is processing the rest unchanged. -/
theorem mflag_c7_bind_false_skips (env : EnvMap) (groupNames : List String)
    (pfx : String) (path : List Nat) (i : Nat) (name : String)
    (tag : tsFieldTag) (ty : GoType) (rest : StructFields) (w : World)
    (h : tag.Bind = "false") :
    bindFields env groupNames pfx path i (.cons name tag ty rest) w =
      bindFields env groupNames pfx path (i + 1) rest w := by
  rw [bindFields]
  by_cases hexp : isExportedName name = false
  · rw [if_pos hexp]
  · rw [if_neg hexp, if_pos h]

/-- C7 witness: a bind:"false" field with a malformed default and an
unsupported (map-of-bool) type produces exactly the bind of the remaining
(empty) field list. -/
theorem mflag_c7_witness :
    bindFields [] [] "" [] 0
        (.cons "Bad" ⟨"false", "zz", "", "", "", ""⟩ (.mapType .bool) .nil)
        ⟨[.vMap .bool []], [], []⟩ =
      bindFields [] [] "" [] 1 .nil ⟨[.vMap .bool []], [], []⟩ :=
  mflag_c7_bind_false_skips [] [] "" [] 0 "Bad" ⟨"false", "zz", "", "", "", ""⟩
    (.mapType .bool) .nil ⟨[.vMap .bool []], [], []⟩ rfl

/-! ### Claim C10 -/

/-- C10: a nested-structure field with a non-empty default tag fails
default-value parsing with the unsupported-kind error and is skipped
entirely: the engine emits one field-scoped diagnostic and never recurses
into the structure, so none of its child fields are registered, written, or
env-resolved. -/
theorem mflag_c10_struct_nonempty_default_skips (env : EnvMap)
    (groupNames : List String) (pfx : String) (path : List Nat) (i : Nat)
    (name : String) (tag : tsFieldTag) (fs : StructFields)
    (rest : StructFields) (w : World)
    (hexp : isExportedName name = true)
    (hbind : tag.Bind ≠ "false")
    (hgroup : tag.Group = "" ∨ groupNames.contains tag.Group = true)
    (hdef : tag.Default ≠ "") :
    bindFields env groupNames pfx path i (.cons name tag (.structType fs) rest) w =
      bindFields env groupNames pfx path (i + 1) rest
        { w with diags := w.diags ++
            ["解析字段 " ++
              (if tag.Flag ≠ "" then tag.Flag
               else toKebabCase (if pfx ≠ "" then pfx ++ "." ++ name else name)) ++
              " 的默认值时出错: " ++ ("不支持的类型: " ++ kindName .kStruct)] } := by
  have hparse : parseDefaultValue (.structType fs) tag.Default =
      .error ("不支持的类型: " ++ kindName .kStruct) := by
    rw [parseDefaultValue.eq_def, if_neg hdef]
  have hgroup' : ¬(tag.Group ≠ "" ∧ groupNames.contains tag.Group = false) := by
    rintro ⟨hne, hcf⟩
    rcases hgroup with hg | hg
    · exact hne hg
    · rw [hg] at hcf
      exact Bool.noConfusion hcf
  rw [bindFields, if_neg (by simp [hexp]), if_neg hbind, if_neg hgroup', hparse]

/-- C10 witness: a struct field with default "x" and one child field. -/
theorem mflag_c10_witness :
    bindFields [] [] "" [] 0
        (.cons "Sub" ⟨"", "x", "", "", "", ""⟩
          (.structType (.cons "A" ⟨"", "", "", "", "", ""⟩ .int .nil)) .nil)
        ⟨[.vStructVal [.vInt 0]], [], []⟩ =
      bindFields [] [] "" [] 1 .nil
        { vals := [.vStructVal [.vInt 0]], flags := [],
          diags := [] ++
            ["解析字段 " ++
              (if (⟨"", "x", "", "", "", ""⟩ : tsFieldTag).Flag ≠ ""
               then (⟨"", "x", "", "", "", ""⟩ : tsFieldTag).Flag
               else toKebabCase (if ("" : String) ≠ "" then "" ++ "." ++ "Sub" else "Sub")) ++
              " 的默认值时出错: " ++ ("不支持的类型: " ++ kindName .kStruct)] } :=
  mflag_c10_struct_nonempty_default_skips [] [] "" [] 0 "Sub"
    ⟨"", "x", "", "", "", ""⟩ (.cons "A" ⟨"", "", "", "", "", ""⟩ .int .nil) .nil
    ⟨[.vStructVal [.vInt 0]], [], []⟩ rfl (by decide) (Or.inl rfl) (by decide)

/-! ### Claim C8 -/

/-- C8 (amended): for every bound field, the environment key consulted is
PREFIX ++ (flag name with '-' replaced by '_', upper-cased), where PREFIX is
the value of PREFIX_ACF or "ACF_" when that variable is unset or empty; and
the override is applied through the parameter-set's setter exactly when that
variable is set TO A NON-EMPTY VALUE and the parameter-set reports the flag
as not yet explicitly set (the code reads the variable with os.Getenv, which
folds set-to-empty into unset). -/
theorem mflag_c8_env_override_amended (env : EnvMap) (flagName : String)
    (w : World) : envStep env flagName w = envStepAmended env flagName w := by
  simp only [envStep, envStepAmended]
  have hpre : (if osGetenv env "PREFIX_ACF" = "" then "ACF_" else osGetenv env "PREFIX_ACF") =
      (match lookupEnv env "PREFIX_ACF" with
       | none => "ACF_"
       | some q => if q = "" then "ACF_" else q) := by
    cases hp : lookupEnv env "PREFIX_ACF" with
    | none => simp [osGetenv, hp]
    | some q => by_cases hq : q = "" <;> simp [osGetenv, hp, hq]
  rw [hpre]
  cases hv : lookupEnv env
      ((match lookupEnv env "PREFIX_ACF" with
        | none => "ACF_"
        | some q => if q = "" then "ACF_" else q) ++
        goToUpper (replaceDashUnderscore flagName)) with
  | none => simp [osGetenv, hv]
  | some v =>
    by_cases hvv : v = "" <;> simp [osGetenv, hv, hvv]

/-- The registry of claim C8's counterexample: one registered string flag
"name" (live binding to field 0, holding "d"), not yet explicitly set. -/
def c8World : World :=
  ⟨[.vString "d"], [⟨"name", .string, [0], false, false, ""⟩], []⟩

/-- C8, counterexample: with ACF_NAME present in the environment but SET TO
THE EMPTY STRING and flag "name" not explicitly set, the claim as stated
("applied exactly when the variable is set and the flag not explicitly set")
demands the override be applied, but the code does nothing — os.Getenv folds
set-to-empty into unset. -/
theorem mflag_c8_set_empty_counterexample :
    envStep [("ACF_NAME", "")] "name" c8World = c8World ∧
      envStep [("ACF_NAME", "")] "name" c8World ≠
        envStepClaim [("ACF_NAME", "")] "name" c8World := by
  refine ⟨rfl, fun h => ?_⟩
  have h2 : flagChanged (envStep [("ACF_NAME", "")] "name" c8World).flags "name" =
      flagChanged (envStepClaim [("ACF_NAME", "")] "name" c8World).flags "name" := by
    rw [h]
  exact Bool.noConfusion (show (false : Bool) = true from h2)
